import Mathlib

/-!
Verification of the sensa-graph-mcp repository.

The backend (MCP tool layer over a Neo4j asset graph) is specified by the
repository documents `docs/ASSET_GRAPH_MCP_DOCUMENTATION.md` (the internal
Cypher each tool sends) and `docs/chat_tool_flow.md` (the `/chat`
orchestration loop and the TOOL_REGISTRY).  The front-end hooks
(`useNodeProperties.ts`, `useGraph.ts`, `useChat.ts`) are translated
directly.  Instants are modelled as `Nat`, the open `validity_to` sentinel
(Cypher `null`) as `Option.none`, and Cypher row semantics as lists of
edge/target pairs (one row per matched relationship).
-/

/-- An edge (relationship) of the asset graph: directed, typed, carrying the
temporal validity attributes `validity_from` / `validity_to` described in the
"Relationship Validity" section of the documentation (`validity_to = none`
models the Cypher `null`, i.e. a still-current relationship). -/
structure GraphEdge where
  src : String
  dst : String
  relType : String
  validity_from : Nat
  validity_to : Option Nat
deriving DecidableEq, Repr

/-- The `validity_filter` object of `aggregate_incoming`, exactly as its
parameter documentation gives it: `as_of_date` optional, `current_only`
optional with documented default `true`. -/
structure ValidityFilterInput where
  as_of_date : Option Nat
  current_only : Option Bool
deriving DecidableEq, Repr

/-- Whether an edge passes the validity filter.  Translated from the
documented internal Cypher: the temporal traversal uses
`r.validity_from <= $as_of_date AND (r.validity_to IS NULL OR
r.validity_to >= $as_of_date)`; `current_only` keeps rows with
`r.validity_to IS NULL`; `current_only` defaults to `true` when not supplied
(parameter table of `aggregate_incoming`), so an absent filter object also
keeps only currently-valid edges. -/
def isLive (e : GraphEdge) (vf : Option ValidityFilterInput) : Bool :=
  match vf with
  | none => e.validity_to.isNone
  | some f =>
    match f.as_of_date with
    | some t =>
      decide (e.validity_from ≤ t) &&
        (match e.validity_to with
         | none => true
         | some v => decide (t ≤ v))
    | none =>
      if f.current_only.getD true then e.validity_to.isNone else true

/-- A validity filter carrying only an `as_of_date`. -/
def asOfFilter (t : Nat) : Option ValidityFilterInput :=
  some { as_of_date := some t, current_only := none }

/-- A concrete edge whose validity window closes exactly at instant 5. -/
def edgeClosingAt5 : GraphEdge :=
  { src := "asset1", dst := "loc1", relType := "LOCATED_IN"
    validity_from := 0, validity_to := some 5 }

/-- C1 counterexample: an edge whose `validity_to` equals the reference
instant `t = 5` IS accepted by the `as_of` validity filter (the documented
Cypher compares with `>=`), contradicting the claim that the window is
half-open and such an edge is not live at `t`. -/
theorem isLive_at_validity_to_boundary :
    edgeClosingAt5.validity_to = some 5 ∧
      isLive edgeClosingAt5 (asOfFilter 5) = true :=
  ⟨rfl, rfl⟩

/-- C1 (amended): the `as_of = t` validity filter accepts an edge iff
`validity_from ≤ t` and (`validity_to` is the open sentinel or
`validity_to ≥ t`): the window is closed at both ends, so an edge whose
`validity_to` equals `t` is still live at `t`. -/
theorem isLive_asOf_iff (e : GraphEdge) (t : Nat) :
    isLive e (asOfFilter t) = true ↔
      e.validity_from ≤ t ∧
        (e.validity_to = none ∨ ∃ v, e.validity_to = some v ∧ t ≤ v) := by
  cases h : e.validity_to with
  | none => simp [isLive, asOfFilter, h]
  | some v => simp [isLive, asOfFilter, h]

/-- A node of the asset graph: opaque identifier, label set (first label is
the primary type), and string-valued attributes (`name`, `unique_id`,
`description`, `fingerprint`). -/
structure GraphNode where
  id : String
  labels : List String
  props : List (String × String)
deriving DecidableEq, Repr

/-- The property graph held by the Neo4j store. -/
structure AssetGraph where
  nodes : List GraphNode
  edges : List GraphEdge
deriving DecidableEq, Repr

/-- Traversal direction parameter of `aggregate_incoming`. -/
inductive TraversalDirection
  | incoming
  | outgoing
  | both
deriving DecidableEq, Repr

/-- An `aggregate_incoming` request (parameter table of the documentation):
start node, relationship-type list, direction, optional target-label filter,
optional validity filter, optional limit (default 1000, used by the list
aggregation). -/
structure AggregateRequest where
  start_node_id : String
  relationship_types : List String
  direction : TraversalDirection
  target_label : Option String
  validity_filter : Option ValidityFilterInput
  limit : Option Nat
deriving DecidableEq, Repr

/-- The neighbor side of an edge relative to the start node, following the
documented Cypher patterns: `INCOMING` matches `(target)-[r]->(start)`,
`OUTGOING` matches `(start)-[r]->(target)`, `BOTH` matches either
direction. -/
def edgeTargetId (d : TraversalDirection) (startId : String) (e : GraphEdge) :
    Option String :=
  match d with
  | .incoming => if e.dst = startId then some e.src else none
  | .outgoing => if e.src = startId then some e.dst else none
  | .both =>
    if e.dst = startId then some e.src
    else if e.src = startId then some e.dst else none

/-- Node lookup by identifier (`WHERE id(n) = $id`). -/
def findNodeById (g : AssetGraph) (i : String) : Option GraphNode :=
  g.nodes.find? (fun n => n.id = i)

/-- Whether a node passes the optional `target_label` filter. -/
def targetLabelOk (tl : Option String) (n : GraphNode) : Bool :=
  match tl with
  | some l => n.labels.contains l
  | none => true

/-- The row a single edge contributes to the traversal match, if any.  One
row per matched relationship, as in the documented Cypher
`MATCH (target:Asset)-[r:LOCATED_IN]->(start) WHERE ...`: the edge must have
a requested type, connect the start node in the requested direction to an
existing target node with the requested label, and pass the validity
filter. -/
def rowOfEdge (g : AssetGraph) (req : AggregateRequest) (e : GraphEdge) :
    Option (GraphEdge × GraphNode) :=
  if req.relationship_types.contains e.relType then
    match edgeTargetId req.direction req.start_node_id e with
    | some tid =>
      match findNodeById g tid with
      | some n =>
        if targetLabelOk req.target_label n && isLive e req.validity_filter
        then some (e, n) else none
      | none => none
    | none => none
  else none

/-- All rows produced by the traversal MATCH, in edge order. -/
def matchedRows (g : AssetGraph) (req : AggregateRequest) :
    List (GraphEdge × GraphNode) :=
  g.edges.filterMap (rowOfEdge g req)

/-- The `count` aggregation: the documented internal Cypher is
`RETURN count(target) AS result`, which counts one per row (per matched
relationship), with no `DISTINCT`. -/
def aggregateCount (g : AssetGraph) (req : AggregateRequest) : Nat :=
  (matchedRows g req).length

/-- The default `limit` of the list aggregation. -/
def DEFAULT_AGG_LIMIT : Nat := 1000

/-- The `list` aggregation: `RETURN target`, one row per matched
relationship, truncated at `limit` (default 1000). -/
def aggregateList (g : AssetGraph) (req : AggregateRequest) :
    List GraphNode :=
  ((matchedRows g req).map Prod.snd).take (req.limit.getD DEFAULT_AGG_LIMIT)

/-- The `relationship_count` field of the response: the number of
relationships traversed, i.e. of edges matched by the traversal pattern. -/
def relationshipCount (g : AssetGraph) (req : AggregateRequest) : Nat :=
  (g.edges.filter (fun e => (rowOfEdge g req e).isSome)).length

/-- The identifiers of the distinct target nodes reached by the traversal
(deduplicated by node identity). -/
def distinctTargetIds (g : AssetGraph) (req : AggregateRequest) :
    List String :=
  ((matchedRows g req).map (fun r => r.2.id)).dedup

/-- A Location node used in concrete scenarios. -/
def bioLoc : GraphNode :=
  { id := "loc1", labels := ["Location"], props := [("name", "Biofilter 11")] }

/-- An Asset node used in concrete scenarios. -/
def sensorAsset : GraphNode :=
  { id := "asset1", labels := ["Asset"], props := [("name", "Oxygen Sensor")] }

/-- A second Asset node used in concrete scenarios. -/
def pumpAsset : GraphNode :=
  { id := "asset2", labels := ["Asset"], props := [("name", "Pump_001")] }

/-- A currently-valid LOCATED_IN edge from `sensorAsset` to `bioLoc`. -/
def liveEdge1 : GraphEdge :=
  { src := "asset1", dst := "loc1", relType := "LOCATED_IN"
    validity_from := 0, validity_to := none }

/-- A second currently-valid LOCATED_IN edge between the same two nodes
(opened later, as the append-only versioning of structural changes
produces). -/
def liveEdge2 : GraphEdge :=
  { src := "asset1", dst := "loc1", relType := "LOCATED_IN"
    validity_from := 3, validity_to := none }

/-- A LOCATED_IN edge from `pumpAsset` to `bioLoc` closed at instant 1. -/
def closedEdge : GraphEdge :=
  { src := "asset2", dst := "loc1", relType := "LOCATED_IN"
    validity_from := 0, validity_to := some 1 }

/-- A graph in which one neighbor is reachable from the start node via two
qualifying edges. -/
def multiEdgeGraph : AssetGraph :=
  { nodes := [bioLoc, sensorAsset], edges := [liveEdge1, liveEdge2] }

/-- A graph whose only candidate edge has a closed validity window in the
past. -/
def closedEdgeGraph : AssetGraph :=
  { nodes := [bioLoc, pumpAsset], edges := [closedEdge] }

/-- The request "aggregate Assets LOCATED_IN loc1, incoming", with a chosen
validity filter and no caller-supplied limit. -/
def incomingAssetsReq (vf : Option ValidityFilterInput) : AggregateRequest :=
  { start_node_id := "loc1", relationship_types := ["LOCATED_IN"]
    direction := .incoming, target_label := some "Asset"
    validity_filter := vf, limit := none }

/-- A `current_only = true` validity filter. -/
def currentOnlyFilter : Option ValidityFilterInput :=
  some { as_of_date := none, current_only := some true }

/-- C3 counterexample: with one neighbor node reached via two qualifying
edges, the `count` aggregation returns 2 (the raw row count) and not 1 (the
number of distinct neighbor nodes), while `relationship_count` is also 2: the
count is not deduplicated, so the two reported numbers do not differ. -/
theorem count_not_deduplicated :
    aggregateCount multiEdgeGraph (incomingAssetsReq currentOnlyFilter) = 2 ∧
      (distinctTargetIds multiEdgeGraph
        (incomingAssetsReq currentOnlyFilter)).length = 1 ∧
      relationshipCount multiEdgeGraph
        (incomingAssetsReq currentOnlyFilter) = 2 := by
  decide

/-- Auxiliary: the length of a `filterMap` equals the number of elements on
which the function succeeds. -/
theorem length_filterMap_eq_length_filter_isSome {α β : Type}
    (f : α → Option β) (l : List α) :
    (l.filterMap f).length = (l.filter (fun a => (f a).isSome)).length := by
  induction l with
  | nil => rfl
  | cons a l ih =>
    cases h : f a <;>
      simp [List.filterMap_cons, List.filter_cons, h, ih]

/-- C3 (amended): the `count` aggregation counts one per qualifying edge
(one Cypher row per matched relationship, no deduplication), so the reported
count always equals `relationship_count`; with a neighbor reached via two
qualifying edges both numbers are 2. -/
theorem aggregateCount_eq_relationshipCount (g : AssetGraph)
    (req : AggregateRequest) :
    aggregateCount g req = relationshipCount g req :=
  length_filterMap_eq_length_filter_isSome (rowOfEdge g req) g.edges

/-- C7 counterexample: a structurally qualifying edge whose `validity_to`
closed in the past is rejected when the request carries no validity filter
(count 0), although an explicit `current_only = false` filter would traverse
it (count 1): an absent filter does not mean "no temporal filtering". -/
theorem absent_filter_excludes_closed_edge :
    closedEdge.validity_to = some 1 ∧
      isLive closedEdge none = false ∧
      aggregateCount closedEdgeGraph (incomingAssetsReq none) = 0 ∧
      aggregateCount closedEdgeGraph
        (incomingAssetsReq
          (some { as_of_date := none, current_only := some false })) = 1 := by
  decide

/-- C7 (amended): when an aggregation request carries no validity filter,
`current_only` takes its documented default `true`, so only edges whose
`validity_to` is the open sentinel are traversed; edges with a closed
`validity_to` are filtered out. -/
theorem absent_filter_defaults_to_current_only (g : AssetGraph)
    (req : AggregateRequest) (hvf : req.validity_filter = none)
    (e : GraphEdge) (n : GraphNode) (hmem : (e, n) ∈ matchedRows g req) :
    e.validity_to = none := by
  rcases List.mem_filterMap.1 hmem with ⟨a, _, hf⟩
  unfold rowOfEdge at hf
  split at hf
  · split at hf
    · split at hf
      · split at hf
        · rename_i hcond
          have hae : a = e := (Prod.ext_iff.1 (Option.some.inj hf)).1
          subst hae
          have hlive : isLive a req.validity_filter = true := by
            simp only [Bool.and_eq_true] at hcond
            exact hcond.2
          rw [hvf] at hlive
          simpa [isLive, Option.isNone_iff_eq_none] using hlive
        · exact absurd hf (by simp)
      · exact absurd hf (by simp)
    · exact absurd hf (by simp)
  · exact absurd hf (by simp)

/-- C7 witness: applying the amended theorem to a concrete traversed row of
a filterless request. -/
theorem absent_filter_defaults_to_current_only_witness :
    liveEdge1.validity_to = none :=
  absent_filter_defaults_to_current_only multiEdgeGraph
    (incomingAssetsReq none) rfl liveEdge1 sensorAsset (by decide)

/-- C8: for a request with no caller-supplied limit whose result size is at
most the default limit, the `count` aggregation equals the length of the
`list` aggregation of the same request. -/
theorem aggregateCount_eq_length_aggregateList (g : AssetGraph)
    (req : AggregateRequest) (hl : req.limit = none)
    (hsize : aggregateCount g req ≤ DEFAULT_AGG_LIMIT) :
    aggregateCount g req = (aggregateList g req).length := by
  have hsize' : (matchedRows g req).length ≤ DEFAULT_AGG_LIMIT := hsize
  simp [aggregateList, aggregateCount, hl, List.length_take, List.length_map,
    Nat.min_eq_right hsize']

/-- C8 witness: the count and the list length agree on a concrete request
within the default limit. -/
theorem aggregateCount_eq_length_aggregateList_witness :
    aggregateCount multiEdgeGraph (incomingAssetsReq currentOnlyFilter) =
      (aggregateList multiEdgeGraph (incomingAssetsReq currentOnlyFilter)).length :=
  aggregateCount_eq_length_aggregateList multiEdgeGraph
    (incomingAssetsReq currentOnlyFilter) rfl (by decide)

/-- Name match mode of the node resolver: exact equality on the `name`
attribute, or prefix matching. -/
inductive MatchMode
  | exact
  | prefixMatch
deriving DecidableEq, Repr

/-- The `name` attribute of a node, if present. -/
def nodeName (n : GraphNode) : Option String :=
  n.props.lookup "name"

/-- Modelled from the spec: the backend resolver implementation is not under
src/; the documentation gives only the exact-match internal Cypher
(`MATCH (n:Label) WHERE n.name = $name RETURN n LIMIT 1`) and the spec adds
the `match_mode` contract — `exact` is equality on the `name` attribute,
`prefix` is a prefix match on it. -/
def nameMatches (mode : MatchMode) (pattern actual : String) : Bool :=
  match mode with
  | .exact => actual = pattern
  | .prefixMatch => pattern.isPrefixOf actual

/-- The nodes matched by a `(label, name, match_mode)` resolution: nodes
carrying the requested label whose `name` attribute matches. -/
def resolveMatches (g : AssetGraph) (label name : String) (mode : MatchMode) :
    List GraphNode :=
  g.nodes.filter (fun n =>
    n.labels.contains label &&
      (match nodeName n with
       | some a => nameMatches mode name a
       | none => false))

/-- The result the `get_node_by_name` tool returns across the tool boundary:
a `found` flag, the node identifier and the node attributes (documentation,
"Returns" section of `get_node_by_name`). -/
structure ResolveResult where
  found : Bool
  node_id : Option String
  attributes : List (String × String)
deriving DecidableEq, Repr

/-- The `get_node_by_name` tool: `LIMIT 1` on the matched nodes; no match is
reported as `found := false` with an empty payload, never as a failure. -/
def getNodeByName (g : AssetGraph) (label name : String) (mode : MatchMode) :
    ResolveResult :=
  match resolveMatches g label name mode with
  | [] => { found := false, node_id := none, attributes := [] }
  | n :: _ => { found := true, node_id := some n.id, attributes := n.props }

/-- C6: a resolution with no matching node returns `found := false` with an
empty payload (the resolver is a total function, so no exception is
possible), and a resolution with exactly one matching node returns
`found := true` with that node's identifier. -/
theorem getNodeByName_found_contract (g : AssetGraph) (label name : String)
    (mode : MatchMode) :
    (resolveMatches g label name mode = [] →
      getNodeByName g label name mode =
        { found := false, node_id := none, attributes := [] }) ∧
    ∀ n, resolveMatches g label name mode = [n] →
      (getNodeByName g label name mode).found = true ∧
      (getNodeByName g label name mode).node_id = some n.id := by
  constructor
  · intro h
    simp [getNodeByName, h]
  · intro n h
    simp [getNodeByName, h]

/-- C6 witness: the contract evaluated on a concrete graph, once with no
match and once with exactly one match. -/
theorem getNodeByName_found_contract_witness :
    getNodeByName multiEdgeGraph "Location" "Nonexistent" .exact =
      { found := false, node_id := none, attributes := [] } ∧
    (getNodeByName multiEdgeGraph "Location" "Biofilter 11" .exact).found
      = true ∧
    (getNodeByName multiEdgeGraph "Location" "Biofilter 11" .exact).node_id
      = some bioLoc.id :=
  ⟨(getNodeByName_found_contract multiEdgeGraph "Location" "Nonexistent"
      .exact).1 (by decide),
   (getNodeByName_found_contract multiEdgeGraph "Location" "Biofilter 11"
      .exact).2 bioLoc (by decide)⟩

/-- The schema-derived label allow-list: the node labels of the four graph
layers (Category, the three Context labels, Asset, Signal). -/
def allowedLabels : List String :=
  ["Category", "Location", "System", "MeasuringUnit", "Asset", "Signal"]

/-- A value bound as a Cypher query parameter. -/
inductive BoundParam
  | str : String → BoundParam
  | strList : List String → BoundParam
  | natVal : Nat → BoundParam
deriving DecidableEq, Repr

/-- A query sent to the store through `run_read_query`: the Cypher text plus
its bound parameters. -/
structure StoreQuery where
  text : String
  params : List (String × BoundParam)
deriving DecidableEq, Repr

/-- The aggregation kinds whose internal Cypher the documentation gives
(`RETURN count(target)` and `RETURN target`). -/
inductive AggKind
  | count
  | list
deriving DecidableEq, Repr

/-- A call dispatched through TOOL_REGISTRY.  `findNode` and `aggregate`
stand for the two documented query builders behind the domain tools of
`chat_tool_flow.md` (find_node, count_related, count_related_by_name,
list_related, ...); `runQuery` is the registry's `run_query` tool, which
takes custom read-only Cypher from the caller. -/
inductive ToolCall
  | findNode (label : String) (name : String)
  | aggregate (req : AggregateRequest) (agg : AggKind)
  | runQuery (cypher : String)
deriving DecidableEq, Repr

/-- The node-lookup Cypher of the documentation appendix, with the
(allow-list validated) label spliced into the pattern and the name left as
the bound parameter `$name`. -/
def nodeLookupText (label : String) : String :=
  "MATCH (n:" ++ label ++ " \x7bname: $name\x7d) RETURN n LIMIT 1"

/-- The optional target-label fragment of the traversal pattern. -/
def labelFragment (tl : Option String) : String :=
  match tl with
  | some l => ":" ++ l
  | none => ""

/-- The MATCH fragment of the traversal Cypher for each direction
(documented patterns: `(target)-[r]->(start)` for INCOMING,
`(start)-[r]->(target)` for OUTGOING, undirected for BOTH). -/
def matchFragment (d : TraversalDirection) (lf : String) : String :=
  match d with
  | .incoming => "MATCH (target" ++ lf ++ ")-[r]->(start) "
  | .outgoing => "MATCH (start)-[r]->(target" ++ lf ++ ") "
  | .both => "MATCH (target" ++ lf ++ ")-[r]-(start) "

/-- The temporal WHERE fragment, selected by the shape of the validity
filter (the `as_of_date` value itself stays a bound parameter, per the
documented temporal traversal Cypher). -/
def validityClause (vf : Option ValidityFilterInput) : String :=
  match vf with
  | none => " AND r.validity_to IS NULL"
  | some f =>
    match f.as_of_date with
    | some _ =>
      " AND r.validity_from <= $as_of_date AND (r.validity_to IS NULL OR r.validity_to >= $as_of_date)"
    | none =>
      if f.current_only.getD true then " AND r.validity_to IS NULL" else ""

/-- The RETURN fragment per aggregation kind. -/
def returnFragment (a : AggKind) : String :=
  match a with
  | .count => " RETURN count(target) AS result"
  | .list => " RETURN target LIMIT $limit"

/-- A full traversal query text assembled from a direction, an optional
target label, a temporal clause and a RETURN fragment. -/
def assembleTraversal (d : TraversalDirection) (tl : Option String)
    (vc : String) (a : AggKind) : String :=
  "MATCH (start) WHERE id(start) = $start_id " ++
    matchFragment d (labelFragment tl) ++
    "WHERE type(r) IN $relationship_types" ++ vc ++ returnFragment a

/-- The traversal query text of an aggregation call. -/
def traversalText (d : TraversalDirection) (tl : Option String)
    (vf : Option ValidityFilterInput) (a : AggKind) : String :=
  assembleTraversal d tl (validityClause vf) a

/-- The store query each tool call produces: the documented builders bind
every caller string (`$name`, `$start_id`, `$relationship_types`,
`$as_of_date`, `$limit`) as parameters; `run_query` ships the caller's
Cypher string as the query text itself. -/
def buildStoreQuery : ToolCall → StoreQuery
  | .findNode label name =>
    { text := nodeLookupText label, params := [("name", .str name)] }
  | .aggregate req agg =>
    { text :=
        traversalText req.direction req.target_label req.validity_filter agg
      params :=
        [("start_id", .str req.start_node_id),
         ("relationship_types", .strList req.relationship_types),
         ("limit", .natVal (req.limit.getD DEFAULT_AGG_LIMIT))] ++
        (match req.validity_filter with
         | some f =>
           match f.as_of_date with
           | some t => [("as_of_date", .natVal t)]
           | none => []
         | none => []) }
  | .runQuery q => { text := q, params := [] }

/-- The target-label choices of the traversal templates: no label filter, or
one of the allow-listed labels. -/
def labelChoices : List (Option String) :=
  none :: allowedLabels.map some

/-- The three possible temporal clauses. -/
def validityClauseChoices : List String :=
  [" AND r.validity_to IS NULL", "",
   " AND r.validity_from <= $as_of_date AND (r.validity_to IS NULL OR r.validity_to >= $as_of_date)"]

/-- The three traversal directions. -/
def directionChoices : List TraversalDirection :=
  [.incoming, .outgoing, .both]

/-- The two documented aggregation RETURN shapes. -/
def aggChoices : List AggKind :=
  [.count, .list]

/-- Every traversal query text over the finite choices of direction,
allow-listed target label, temporal clause and aggregation kind. -/
def traversalTemplates : List String :=
  directionChoices.flatMap fun d =>
    labelChoices.flatMap fun tl =>
      validityClauseChoices.flatMap fun vc =>
        aggChoices.map fun a => assembleTraversal d tl vc a

/-- The small fixed internal set of query texts: the node lookups over the
allow-listed labels plus the traversal templates. -/
def fixedQueryTexts : List String :=
  allowedLabels.map nodeLookupText ++ traversalTemplates

/-- The Parameter Validator's check relevant to query construction: labels
spliced into a pattern must come from the allow-list; `run_query` input is
not constrained by it. -/
def validatedCall : ToolCall → Prop
  | .findNode label _ => label ∈ allowedLabels
  | .aggregate req _ => ∀ l, req.target_label = some l → l ∈ allowedLabels
  | .runQuery _ => True

/-- Caller-supplied data reaches the store only through bound parameters:
the query text does not change when the data changes, and the data is
carried by the parameter list.  For `run_query` this fails by construction:
the caller's string IS the text. -/
def callerDataBoundOnly : ToolCall → Prop
  | .findNode label name =>
    (∀ n₂, (buildStoreQuery (.findNode label n₂)).text =
        (buildStoreQuery (.findNode label name)).text) ∧
      ("name", BoundParam.str name) ∈
        (buildStoreQuery (.findNode label name)).params
  | .aggregate req agg =>
    (∀ sid types lim,
        (buildStoreQuery (.aggregate
          { req with start_node_id := sid, relationship_types := types,
                     limit := lim } agg)).text =
          (buildStoreQuery (.aggregate req agg)).text) ∧
      ("start_id", BoundParam.str req.start_node_id) ∈
        (buildStoreQuery (.aggregate req agg)).params ∧
      ("relationship_types", BoundParam.strList req.relationship_types) ∈
        (buildStoreQuery (.aggregate req agg)).params
  | .runQuery _ => False

/-- Auxiliary: the temporal clause of any validity filter is one of the
three fixed clauses. -/
theorem validityClause_mem (vf : Option ValidityFilterInput) :
    validityClause vf ∈ validityClauseChoices := by
  cases vf with
  | none => simp [validityClause, validityClauseChoices]
  | some f =>
    cases h : f.as_of_date with
    | some t => simp [validityClause, h, validityClauseChoices]
    | none =>
      by_cases hc : f.current_only.getD true <;>
        simp [validityClause, h, hc, validityClauseChoices]

/-- A concrete caller-supplied Cypher string handed to `run_query`. -/
def injectedCypher : String := "MATCH (n) DETACH DELETE n"

/-- C2 counterexample: the `run_query` tool of TOOL_REGISTRY sends the
caller-supplied string itself as the query text, and that text is not in the
fixed internal template set — the claimed guarantee does not hold for every
construction path of every tool. -/
theorem runQuery_text_is_caller_string :
    (buildStoreQuery (.runQuery injectedCypher)).text = injectedCypher ∧
      injectedCypher ∉ fixedQueryTexts := by
  refine ⟨rfl, ?_⟩
  decide

/-- C2 (amended): for every tool other than `run_query`, with validated
(allow-listed) labels, the query text is selected from the fixed internal
template set and every caller-supplied string (name, start id,
relationship-type list) reaches the store only as a bound parameter;
`run_query` instead ships the caller's Cypher string as the query text. -/
theorem non_runQuery_uses_fixed_templates (c : ToolCall)
    (hv : validatedCall c) (hnr : ∀ q, c ≠ ToolCall.runQuery q) :
    (buildStoreQuery c).text ∈ fixedQueryTexts ∧ callerDataBoundOnly c := by
  cases c with
  | findNode label name =>
    refine ⟨List.mem_append_left _ (List.mem_map_of_mem nodeLookupText hv), ?_⟩
    exact ⟨fun n₂ => rfl, by simp [buildStoreQuery]⟩
  | aggregate req agg =>
    constructor
    · refine List.mem_append_right _ ?_
      have htl : req.target_label ∈ labelChoices := by
        cases h : req.target_label with
        | none => simp [labelChoices]
        | some l =>
          exact List.mem_cons_of_mem none
            (List.mem_map_of_mem some (hv l h))
      have hd : req.direction ∈ directionChoices := by
        cases req.direction <;> simp [directionChoices]
      have ha : agg ∈ aggChoices := by
        cases agg <;> simp [aggChoices]
      refine List.mem_flatMap.2 ⟨req.direction, hd, ?_⟩
      refine List.mem_flatMap.2 ⟨req.target_label, htl, ?_⟩
      refine List.mem_flatMap.2
        ⟨validityClause req.validity_filter, validityClause_mem _, ?_⟩
      exact List.mem_map.2 ⟨agg, ha, rfl⟩
    · exact ⟨fun sid types lim => rfl, by simp [buildStoreQuery],
        by simp [buildStoreQuery]⟩
  | runQuery q => exact absurd rfl (hnr q)

/-- C2 witness: the amended guarantee applied to a concrete validated
lookup call. -/
theorem non_runQuery_uses_fixed_templates_witness :
    (buildStoreQuery (.findNode "Location" "Biofilter 11")).text ∈
        fixedQueryTexts ∧
      callerDataBoundOnly (.findNode "Location" "Biofilter 11") :=
  non_runQuery_uses_fixed_templates (.findNode "Location" "Biofilter 11")
    (show "Location" ∈ allowedLabels by decide)
    (fun q h => ToolCall.noConfusion h)

/-- A reasoning-model response: answer text plus any requested tool calls
(the `tool_use` blocks). -/
structure ModelResponse where
  text : String
  tool_calls : List ToolCall
deriving Repr

/-- A conversation entry of the `/chat` loop: the user query, an assistant
response, or the tool results folded back into the conversation. -/
inductive ChatTurn
  | userTurn (s : String)
  | assistantTurn (r : ModelResponse)
  | toolResults (outs : List String)
deriving Repr

/-- The fixed iteration bound of the `/chat` loop (`Max iterations (5)` in
`chat_tool_flow.md`). -/
def MAX_ITERATIONS : Nat := 5

/-- The directive of the forced final model call once the bound is reached:
answer from the accumulated tool results instead of requesting more tools. -/
def finalDirective : String :=
  "Answer from the tool results gathered so far."

/-- Outcome of one `/chat` request: the answer text, the number of model
calls made, and the number of tool-execution phases run. -/
structure ChatOutcome where
  answer : String
  modelCalls : Nat
  toolPhases : Nat
deriving Repr

/-- The conversation after executing one round of requested tool calls: the
assistant response and the tool results are appended. -/
def nextConv (model : List ChatTurn → ModelResponse)
    (exec : ToolCall → String) (conv : List ChatTurn) : List ChatTurn :=
  conv ++ [ChatTurn.assistantTurn (model conv),
    ChatTurn.toolResults ((model conv).tool_calls.map exec)]

/-- The `/chat` loop (steps 4-7 of `chat_tool_flow.md`): call the model; a
response with no `tool_use` is the final answer; otherwise execute the tool
calls, fold the results into the conversation and loop; when the iteration
budget is exhausted, make one last model call (with the final directive) and
return whatever text it produces. -/
def chatLoopAux (model : List ChatTurn → ModelResponse)
    (exec : ToolCall → String) : Nat → List ChatTurn → ChatOutcome
  | 0, conv =>
    { answer := (model (conv ++ [ChatTurn.userTurn finalDirective])).text
      modelCalls := 1, toolPhases := 0 }
  | n + 1, conv =>
    if (model conv).tool_calls.isEmpty then
      { answer := (model conv).text, modelCalls := 1, toolPhases := 0 }
    else
      let o := chatLoopAux model exec n (nextConv model exec conv)
      { answer := o.answer, modelCalls := o.modelCalls + 1
        toolPhases := o.toolPhases + 1 }

/-- One `/chat` request: the conversation starts with the user query as the
only turn, and the loop runs with the fixed iteration budget. -/
def runChat (model : List ChatTurn → ModelResponse)
    (exec : ToolCall → String) (query : String) : ChatOutcome :=
  chatLoopAux model exec MAX_ITERATIONS [ChatTurn.userTurn query]

/-- The conversation reached after a given number of model-tool phases. -/
def convAfterPhases (model : List ChatTurn → ModelResponse)
    (exec : ToolCall → String) : Nat → List ChatTurn → List ChatTurn
  | 0, conv => conv
  | n + 1, conv => convAfterPhases model exec n (nextConv model exec conv)

/-- Auxiliary: the loop never makes more than `fuel + 1` model calls nor
more than `fuel` tool phases. -/
theorem chatLoopAux_bounds (model : List ChatTurn → ModelResponse)
    (exec : ToolCall → String) :
    ∀ (fuel : Nat) (conv : List ChatTurn),
      (chatLoopAux model exec fuel conv).modelCalls ≤ fuel + 1 ∧
        (chatLoopAux model exec fuel conv).toolPhases ≤ fuel := by
  intro fuel
  induction fuel with
  | zero =>
    intro conv
    simp [chatLoopAux]
  | succ n ih =>
    intro conv
    by_cases h : (model conv).tool_calls.isEmpty
    · simp [chatLoopAux, h]
    · have hb := ih (nextConv model exec conv)
      simp only [chatLoopAux, h, if_false]
      constructor
      · exact Nat.succ_le_succ hb.1
      · exact Nat.succ_le_succ hb.2

/-- Auxiliary: when the model requests tool calls on every turn, the loop
consumes its whole budget and ends with the forced final call on the
accumulated conversation plus the final directive. -/
theorem chatLoopAux_forced (model : List ChatTurn → ModelResponse)
    (exec : ToolCall → String)
    (h : ∀ conv, (model conv).tool_calls ≠ []) :
    ∀ (fuel : Nat) (conv : List ChatTurn),
      chatLoopAux model exec fuel conv =
        { answer := (model (convAfterPhases model exec fuel conv ++
            [ChatTurn.userTurn finalDirective])).text
          modelCalls := fuel + 1, toolPhases := fuel } := by
  intro fuel
  induction fuel with
  | zero =>
    intro conv
    rfl
  | succ n ih =>
    intro conv
    have hne : (model conv).tool_calls.isEmpty = false := by
      simpa using h conv
    simp only [chatLoopAux, hne, Bool.false_eq_true, if_false,
      ih (nextConv model exec conv), convAfterPhases]

/-- C4: for every model behavior and every tool executor, the `/chat` loop
terminates within at most 5 model-tool round trips plus one model call; when
the model keeps requesting tool calls, the loop runs exactly 5 tool phases
and then makes exactly one further model call, returning that response's
text as the answer. -/
theorem chat_loop_terminates_within_bound
    (model : List ChatTurn → ModelResponse) (exec : ToolCall → String)
    (q : String) :
    (runChat model exec q).modelCalls ≤ MAX_ITERATIONS + 1 ∧
      (runChat model exec q).toolPhases ≤ MAX_ITERATIONS ∧
      ((∀ conv, (model conv).tool_calls ≠ []) →
        (runChat model exec q).modelCalls = MAX_ITERATIONS + 1 ∧
          (runChat model exec q).toolPhases = MAX_ITERATIONS ∧
          (runChat model exec q).answer =
            (model (convAfterPhases model exec MAX_ITERATIONS
              [ChatTurn.userTurn q] ++
                [ChatTurn.userTurn finalDirective])).text) := by
  refine ⟨(chatLoopAux_bounds model exec MAX_ITERATIONS _).1,
    (chatLoopAux_bounds model exec MAX_ITERATIONS _).2, ?_⟩
  intro h
  rw [runChat, chatLoopAux_forced model exec h MAX_ITERATIONS]
  exact ⟨rfl, rfl, rfl⟩

/-- A model that requests a tool call on every turn. -/
def alwaysToolModel : List ChatTurn → ModelResponse :=
  fun _ => { text := "still gathering"
             tool_calls := [ToolCall.findNode "Location" "Hall 1"] }

/-- A tool executor producing a constant result payload. -/
def constExec : ToolCall → String := fun _ => "ok"

/-- C4 witness: with a model that always requests tools, a concrete `/chat`
request makes exactly 6 model calls (5 round trips plus the forced final
call) and answers with the final response's text. -/
theorem chat_loop_terminates_within_bound_witness :
    (runChat alwaysToolModel constExec "How many assets are in Hall 1?").modelCalls
        = MAX_ITERATIONS + 1 ∧
      (runChat alwaysToolModel constExec "How many assets are in Hall 1?").answer
        = "still gathering" := by
  have h := chat_loop_terminates_within_bound alwaysToolModel constExec
    "How many assets are in Hall 1?"
  have hforced := h.2.2 (fun conv => by simp [alwaysToolModel])
  refine ⟨hforced.1, ?_⟩
  rw [hforced.2.2]
  rfl

/-- Whitespace trimming at both ends, as JS `String.prototype.trim` does,
modelled over the character list of the string. -/
def trimChars (l : List Char) : List Char :=
  ((l.dropWhile Char.isWhitespace).reverse.dropWhile Char.isWhitespace).reverse

/-- JS `value.trim()` on a string. -/
def jsTrim (s : String) : String :=
  ⟨trimChars s.data⟩

/-- An editable property row of the node-properties panel
(`EditablePropertyItem.tsx` / `useNodeProperties.ts`): key and value text,
the original key for pre-existing properties, and the `isNew` / `isDeleted`
flags. -/
structure EditableProperty where
  key : String
  value : String
  originalKey : Option String
  isNew : Bool
  isDeleted : Bool
deriving DecidableEq, Repr

/-- The non-deleted rows
(`editableProperties.filter((p) => !p.isDeleted)`). -/
def activeProps (ps : List EditableProperty) : List EditableProperty :=
  ps.filter (fun p => !p.isDeleted)

/-- The trimmed keys of the active rows
(`activeProps.map((p) => p.key.trim())`). -/
def trimmedKeys (ps : List EditableProperty) : List String :=
  (activeProps ps).map (fun p => jsTrim p.key)

/-- The later duplicate occurrences among the keys
(`keys.filter((key, index) => keys.indexOf(key) !== index)`). -/
def duplicateKeys (keys : List String) : List String :=
  (keys.enum.filter (fun p => keys.indexOf p.2 ≠ p.1)).map Prod.snd

/-- The `validateProperties` check of `useNodeProperties.ts`: empty trimmed
keys set the empty-key error, duplicated trimmed keys overwrite it with the
duplicate-key error; the result is the final validation error, `none`
meaning valid. -/
def validateProperties (ps : List EditableProperty) : Option String :=
  let keys := trimmedKeys ps
  let emptyKeys := keys.filter (fun k => k = "")
  let e :=
    if emptyKeys.length > 0 then some "Property keys cannot be empty"
    else none
  let dups := duplicateKeys keys
  if dups.length > 0 then
    some ("Duplicate property keys: " ++ String.intercalate ", " dups)
  else e

/-- The update payload built by `buildPropertyChanges`: the kept properties
(the values stay the raw edited strings here; `parseValue` only converts
the value representation and plays no role in whether or what request is
issued) and the keys to delete (original keys of deleted rows, then
original keys of renamed rows). -/
structure PropertyChanges where
  properties : List (String × String)
  deleteProperties : List String
deriving DecidableEq, Repr

/-- Translation of `buildPropertyChanges` of `useNodeProperties.ts`. -/
def buildPropertyChanges (ps : List EditableProperty) : PropertyChanges :=
  { properties :=
      (ps.filter (fun p => !p.isDeleted)).map
        (fun p => (jsTrim p.key, p.value))
    deleteProperties :=
      ps.filterMap (fun p =>
        match p.originalKey with
        | some ok => if p.isDeleted then some ok else none
        | none => none) ++
      ps.filterMap (fun p =>
        match p.originalKey with
        | some ok =>
          if jsTrim p.key ≠ ok && !p.isDeleted then some ok else none
        | none => none) }

/-- Outcome of `handleSave`: the validation error, and the update request
(issued to `updateNodeProperties(selectedNode.id, properties,
deleteProperties)`) when validation passes. -/
structure SaveOutcome where
  error : Option String
  request : Option (String × PropertyChanges)
deriving DecidableEq, Repr

/-- The save path of `useNodeProperties.ts`: a validation failure sets the
error and returns before any backend call; otherwise the update request is
issued. -/
def handleSave (nodeId : String) (ps : List EditableProperty) : SaveOutcome :=
  match validateProperties ps with
  | some e => { error := some e, request := none }
  | none =>
    { error := none, request := some (nodeId, buildPropertyChanges ps) }

/-- Auxiliary: the empty-key filter finds something iff the empty string is
among the keys. -/
theorem empty_key_found_iff (keys : List String) :
    (keys.filter (fun k => k = "")).length > 0 ↔ "" ∈ keys := by
  constructor
  · intro h
    have hne : keys.filter (fun k => k = "") ≠ [] := by
      intro hnil
      rw [hnil] at h
      simp at h
    rcases List.exists_mem_of_ne_nil _ hne with ⟨a, ha⟩
    have hmem := List.mem_filter.1 ha
    have : a = "" := by simpa using hmem.2
    exact this ▸ hmem.1
  · intro h
    exact List.length_pos_of_mem (List.mem_filter.2 ⟨h, by simp⟩)

/-- Auxiliary: the JS duplicate scan (`indexOf(key) !== index`) finds
nothing iff the key list has no duplicates. -/
theorem duplicateKeys_eq_nil_iff_nodup (keys : List String) :
    duplicateKeys keys = [] ↔ keys.Nodup := by
  unfold duplicateKeys
  rw [List.map_eq_nil_iff, List.filter_eq_nil_iff]
  constructor
  · intro hall
    rw [List.nodup_iff_injective_getElem]
    intro i j hij
    have hi := hall (i.1, keys[i.1])
      (List.mk_mem_enum_iff_getElem?.2 (List.getElem?_eq_getElem i.2))
    have hj := hall (j.1, keys[j.1])
      (List.mk_mem_enum_iff_getElem?.2 (List.getElem?_eq_getElem j.2))
    simp only [decide_eq_true_eq, not_not] at hi hj
    apply Fin.ext
    rw [← hi, ← hj]
    simp only [hij]
  · rintro hnd ⟨i, x⟩ hp
    have hx : keys[i]? = some x := List.mk_mem_enum_iff_getElem?.1 hp
    rcases List.getElem?_eq_some.1 hx with ⟨hlt, hxi⟩
    subst hxi
    simp [List.indexOf_getElem hnd i hlt]

/-- Auxiliary: validation succeeds iff the trimmed active keys contain no
empty key and no duplicates. -/
theorem validateProperties_eq_none_iff (ps : List EditableProperty) :
    validateProperties ps = none ↔
      "" ∉ trimmedKeys ps ∧ (trimmedKeys ps).Nodup := by
  unfold validateProperties
  by_cases hd : (duplicateKeys (trimmedKeys ps)).length > 0
  · have hnd : ¬(trimmedKeys ps).Nodup := by
      intro h
      have hnil := (duplicateKeys_eq_nil_iff_nodup _).2 h
      rw [hnil] at hd
      simp at hd
    simp [hd, hnd]
  · have hdup : duplicateKeys (trimmedKeys ps) = [] := by
      cases h : duplicateKeys (trimmedKeys ps) with
      | nil => rfl
      | cons a t =>
        rw [h] at hd
        simp at hd
    have hnd : (trimmedKeys ps).Nodup :=
      (duplicateKeys_eq_nil_iff_nodup _).1 hdup
    by_cases he : ((trimmedKeys ps).filter (fun k => k = "")).length > 0
    · have hmem := (empty_key_found_iff _).1 he
      simp [hd, he, hmem]
    · have hmem : "" ∉ trimmedKeys ps :=
        fun hm => he ((empty_key_found_iff _).2 hm)
      simp [hd, he, hmem, hnd]

/-- C5: saving a property-edit session with a non-deleted entry whose
trimmed key is empty, or with two non-deleted entries with equal trimmed
keys, sets a validation error and issues no update request; otherwise the
update request is issued to the backend. -/
theorem handleSave_validation_gate (nodeId : String)
    (ps : List EditableProperty) :
    (((∃ p ∈ activeProps ps, jsTrim p.key = "") ∨
        ¬(trimmedKeys ps).Nodup) →
      (handleSave nodeId ps).error ≠ none ∧
        (handleSave nodeId ps).request = none) ∧
    ((¬(∃ p ∈ activeProps ps, jsTrim p.key = "") ∧
        (trimmedKeys ps).Nodup) →
      (handleSave nodeId ps).error = none ∧
        (handleSave nodeId ps).request =
          some (nodeId, buildPropertyChanges ps)) := by
  have hmm : "" ∈ trimmedKeys ps ↔ ∃ p ∈ activeProps ps, jsTrim p.key = "" := by
    unfold trimmedKeys
    constructor
    · intro h
      rcases List.mem_map.1 h with ⟨p, hp, hq⟩
      exact ⟨p, hp, hq⟩
    · rintro ⟨p, hp, hq⟩
      exact List.mem_map.2 ⟨p, hp, hq⟩
  constructor
  · intro hbad
    have hne : validateProperties ps ≠ none := by
      intro h
      rcases (validateProperties_eq_none_iff ps).1 h with ⟨hnemp, hnd⟩
      rcases hbad with hb | hb
      · exact hnemp (hmm.2 hb)
      · exact hb hnd
    cases h : validateProperties ps with
    | none => exact absurd h hne
    | some e => exact ⟨by simp [handleSave, h], by simp [handleSave, h]⟩
  · rintro ⟨h1, h2⟩
    have hn : validateProperties ps = none :=
      (validateProperties_eq_none_iff ps).2 ⟨fun hm => h1 (hmm.1 hm), h2⟩
    exact ⟨by simp [handleSave, hn], by simp [handleSave, hn]⟩

/-- A single valid property row. -/
def goodProps : List EditableProperty :=
  [{ key := "name", value := "Pump_001", originalKey := some "name"
     isNew := false, isDeleted := false }]

/-- A single row whose key trims to the empty string. -/
def badProps : List EditableProperty :=
  [{ key := " ", value := "1", originalKey := none
     isNew := true, isDeleted := false }]

/-- C5 witness: the gate evaluated on concrete rows — the empty-key session
issues no request, the valid session issues exactly the built update. -/
theorem handleSave_validation_gate_witness :
    (handleSave "node1" badProps).request = none ∧
      (handleSave "node1" goodProps).request =
        some ("node1", buildPropertyChanges goodProps) :=
  ⟨((handleSave_validation_gate "node1" badProps).1 (Or.inl (by decide))).2,
   ((handleSave_validation_gate "node1" goodProps).2
      ⟨by decide, by decide⟩).2⟩

/-- A node as returned by the graph API (`GraphResultNode` of `types.ts`):
identifier, labels, properties. -/
structure GraphResultNode where
  id : String
  labels : List String
  properties : List (String × String)
deriving DecidableEq, Repr

/-- An NVL display node (`NodeWithColor` of `types.ts`): `nodeType` stands
for its `type` field (a Lean keyword). -/
structure NodeWithColor where
  id : String
  caption : Option String
  nodeType : String
  color : String
  properties : List (String × String)
deriving DecidableEq, Repr

/-- An NVL display relationship (output of
`mapGraphRelationshipToNvlRelationship`). -/
structure NvlRelationship where
  relId : String
  fromId : String
  toId : String
  caption : String
deriving DecidableEq, Repr

/-- `mapGraphNodeToNvlNode` of `utils/graphMappers`: the first label (or
"Unknown") becomes the display type; `getColorForType` lives in
`constants.ts`, which is not under src/, so the color assignment is passed
in as `colorFor`. -/
def mapGraphNodeToNvlNode (colorFor : String → String)
    (node : GraphResultNode) : NodeWithColor :=
  let nodeType :=
    match node.labels with
    | [] => "Unknown"
    | t :: _ => t
  { id := node.id
    caption := node.properties.lookup "name"
    nodeType := nodeType
    color := colorFor nodeType
    properties := node.properties }

/-- The `useGraph` hook state: displayed nodes, displayed relationships and
the selected node. -/
structure GraphViewState where
  nodes : List NodeWithColor
  relationships : List NvlRelationship
  selectedNode : Option NodeWithColor
deriving DecidableEq, Repr

/-- `updateNodeInGraph` of `useGraph.ts`: re-map the updated node and
replace, by identifier, its occurrences in the node list
(`prev.map((node) => node.id === updatedNode.id ? mappedNode : node)`); the
selection is refreshed when it points at that identifier; the relationship
list is not touched. -/
def updateNodeInGraph (colorFor : String → String) (u : GraphResultNode)
    (s : GraphViewState) : GraphViewState :=
  let mapped := mapGraphNodeToNvlNode colorFor u
  { nodes := s.nodes.map (fun n => if n.id = u.id then mapped else n)
    relationships := s.relationships
    selectedNode :=
      match s.selectedNode with
      | some sel => if sel.id = u.id then some mapped else some sel
      | none => none }

/-- C9: `updateNodeInGraph` replaces exactly the node(s) whose id equals
the updated node's id with the re-mapped node; every node at a position
with a different id is unchanged, the node list keeps its length, and the
relationship list is unchanged. -/
theorem updateNodeInGraph_frame (colorFor : String → String)
    (u : GraphResultNode) (s : GraphViewState) :
    (updateNodeInGraph colorFor u s).relationships = s.relationships ∧
      (updateNodeInGraph colorFor u s).nodes.length = s.nodes.length ∧
      ∀ (i : Nat) (n : NodeWithColor), s.nodes[i]? = some n →
        (n.id ≠ u.id →
          (updateNodeInGraph colorFor u s).nodes[i]? = some n) ∧
        (n.id = u.id →
          (updateNodeInGraph colorFor u s).nodes[i]? =
            some (mapGraphNodeToNvlNode colorFor u)) := by
  refine ⟨rfl, by simp [updateNodeInGraph], ?_⟩
  intro i n hn
  constructor
  · intro hne
    simp [updateNodeInGraph, List.getElem?_map, hn, hne]
  · intro heq
    simp [updateNodeInGraph, List.getElem?_map, hn, heq]

/-- A fixed color assignment standing in for `getColorForType`. -/
def colorGray : String → String := fun _ => "gray"

/-- An API node for the update scenario. -/
def apiNodeA : GraphResultNode :=
  { id := "n1", labels := ["Asset"], properties := [("name", "Pump")] }

/-- The updated version of `apiNodeA` after a property edit. -/
def apiNodeA2 : GraphResultNode :=
  { id := "n1", labels := ["Asset"], properties := [("name", "Pump v2")] }

/-- A second, unrelated API node. -/
def apiNodeB : GraphResultNode :=
  { id := "n2", labels := ["Location"], properties := [("name", "Hall 1")] }

/-- A concrete view state holding both nodes and one relationship. -/
def viewState0 : GraphViewState :=
  { nodes := [mapGraphNodeToNvlNode colorGray apiNodeA,
              mapGraphNodeToNvlNode colorGray apiNodeB]
    relationships :=
      [{ relId := "r1", fromId := "n1", toId := "n2"
         caption := "LOCATED_IN" }]
    selectedNode := none }

/-- C9 witness: updating node n1 in a concrete state keeps the
relationships and node n2 intact and replaces position 0 with the re-mapped
node. -/
theorem updateNodeInGraph_frame_witness :
    (updateNodeInGraph colorGray apiNodeA2 viewState0).relationships =
        viewState0.relationships ∧
      (updateNodeInGraph colorGray apiNodeA2 viewState0).nodes[1]? =
        some (mapGraphNodeToNvlNode colorGray apiNodeB) ∧
      (updateNodeInGraph colorGray apiNodeA2 viewState0).nodes[0]? =
        some (mapGraphNodeToNvlNode colorGray apiNodeA2) := by
  have h := updateNodeInGraph_frame colorGray apiNodeA2 viewState0
  refine ⟨h.1, ?_, ?_⟩
  · exact (h.2.2 1 (mapGraphNodeToNvlNode colorGray apiNodeB) rfl).1
      (by decide)
  · exact (h.2.2 0 (mapGraphNodeToNvlNode colorGray apiNodeA) rfl).2
      (by decide)

/-- A chat message role. -/
inductive ChatRole
  | user
  | assistant
deriving DecidableEq, Repr

/-- A chat message (`ChatMessageType` of `useChat.ts`); a missing `loading`
field in the source is the same as `loading := false`. -/
structure ChatMessage where
  role : ChatRole
  content : String
  loading : Bool
  timestamp : Nat
deriving DecidableEq, Repr

/-- The `useChat` state relevant to `sendMessage`: the input box text, the
message list and the loading flag. -/
structure ChatState where
  input : String
  messages : List ChatMessage
  isLoading : Bool
deriving DecidableEq, Repr

/-- The synchronous phase of `sendMessage` (`useChat.ts`), up to awaiting
the chat API: trim the input; an empty result returns with nothing changed
and no API call; otherwise the user message and a loading assistant
placeholder are appended, the input cleared, the loading flag set, and the
API call on the trimmed text issued (`Date.now()` is passed in as `now`;
the second component is the query text of the issued `callChatApi` call). -/
def sendMessage (now : Nat) (s : ChatState) : ChatState × Option String :=
  let text := jsTrim s.input
  if text = "" then (s, none)
  else
    ({ input := ""
       messages := s.messages ++
         [{ role := .user, content := text, loading := false
            timestamp := now },
          { role := .assistant, content := "", loading := true
            timestamp := now }]
       isLoading := true }, some text)

/-- C10: an input that is empty after trimming makes `sendMessage` return
with the state untouched (no message appended, loading flag untouched) and
no API call; a non-empty input appends exactly the user message and one
loading assistant placeholder, sets the loading flag, clears the input and
issues the API call on the trimmed text. -/
theorem sendMessage_empty_guard (now : Nat) (s : ChatState) :
    (jsTrim s.input = "" → sendMessage now s = (s, none)) ∧
    (jsTrim s.input ≠ "" →
      (sendMessage now s).2 = some (jsTrim s.input) ∧
      (sendMessage now s).1.messages = s.messages ++
        [{ role := .user, content := jsTrim s.input, loading := false
           timestamp := now },
         { role := .assistant, content := "", loading := true
           timestamp := now }] ∧
      (sendMessage now s).1.isLoading = true ∧
      (sendMessage now s).1.input = "") := by
  constructor
  · intro h
    simp [sendMessage, h]
  · intro h
    simp [sendMessage, h]

/-- C10 witness: the guard evaluated on a whitespace-only input and on a
padded non-empty input. -/
theorem sendMessage_empty_guard_witness :
    sendMessage 7 { input := "   ", messages := [], isLoading := false } =
        ({ input := "   ", messages := [], isLoading := false }, none) ∧
      (sendMessage 7
        { input := " hi ", messages := [], isLoading := false }).2 =
        some "hi" := by
  refine ⟨(sendMessage_empty_guard 7 _).1 (by decide), ?_⟩
  have h := (sendMessage_empty_guard 7
    { input := " hi ", messages := [], isLoading := false }).2 (by decide)
  rw [h.1]
  rfl
